import Mathlib

/-!
Shallow embedding of the syscall-filtering supervisor of google/skia-buildbot
(`fiddlek/cpp/fiddle_secwrap.cpp`, `webtry/fiddle_secwrap.cpp`,
`webtry/seccomp_bpf.h`).

C strings are modelled as `List Nat` of their bytes before the terminating
NUL.  The two configurations (the fiddlek "ingest" wrapper and the older
webtry wrapper) are embedded separately where their code differs.
-/

/-- Bytes of a string literal: the byte list of a NUL-free C string. -/
def str (s : String) : List Nat := s.data.map (fun c => c.toNat)

/-- Substring test, the semantics of C `strstr(s, pat) != NULL`. -/
def containsSub (pat : List Nat) : List Nat → Bool
  | [] => pat.isPrefixOf []
  | c :: rest => pat.isPrefixOf (c :: rest) || containsSub pat rest

/-- The bytes of `"../"`. -/
def ddSlash : List Nat := str "../"

/-- The bytes of `".."`. -/
def ddot : List Nat := str ".."

/-- Outcome of handling one traced event: either the tracee is resumed
(`PTRACE_CONT`) or it is killed (via `child_fail` / `CHILD_FAIL`). -/
inductive TraceAction where
  | resume : TraceAction
  | kill : TraceAction
deriving DecidableEq, Repr

/-- Embedding of `test_against_prefixes` from `fiddlek/cpp/fiddle_secwrap.cpp`:
kill when the path contains `"../"`; otherwise scan the prefix list in
declaration order and accept at the first given list element that is a byte
prefix of the path (C `strncmp(p, name, strlen(p)) == 0`); kill when no
element matches. -/
def test_against_prefixes (prefixes : List (List Nat)) (name : List Nat) : TraceAction :=
  if containsSub ddSlash name then TraceAction.kill
  else if (prefixes.find? (fun p => p.isPrefixOf name)).isSome then TraceAction.resume
  else TraceAction.kill


/-!
BPF layer: the filter program built by `install_syscall_filter` from the
macros in `webtry/seccomp_bpf.h`, and a small interpreter for the four
instruction forms those macros use.  All jumps in seccomp classic BPF are
forward, so a jump of `j` from an instruction is `List.drop j` of the tail.
-/

/-- BPF instruction forms used by the macros in `seccomp_bpf.h`:
word load from the seccomp data (`BPF_LD+BPF_W+BPF_ABS`), conditional
equality jump (`BPF_JMP+BPF_JEQ+BPF_K`), bitwise and with a constant
(`BPF_ALU+BPF_AND+BPF_K`) and return (`BPF_RET+BPF_K`). -/
inductive Instr where
  | ldw (off : Nat)
  | jeq (k jt jf : Nat)
  | andK (k : Nat)
  | ret (k : Nat)

/-- The kernel-supplied `struct seccomp_data`: syscall number, audit
architecture tag, and six 64-bit syscall arguments. -/
structure SeccompData where
  nr : Nat
  arch : Nat
  args : Nat → Nat

/-- Kernel seccomp return value for killing the tracee (`SECCOMP_RET_KILL`). -/
def SECCOMP_RET_KILL : Nat := 0

/-- Kernel seccomp return value for notifying the tracer (`SECCOMP_RET_TRACE`,
0x7ff00000). -/
def SECCOMP_RET_TRACE : Nat := 2146435072

/-- Kernel seccomp return value for allowing the syscall (`SECCOMP_RET_ALLOW`,
0x7fff0000). -/
def SECCOMP_RET_ALLOW : Nat := 2147418112

/-- The x86-64 audit architecture tag `AUDIT_ARCH_X86_64` (0xC000003E). -/
def AUDIT_ARCH_X86_64 : Nat := 3221225534

/-- A 32-bit word load from `struct seccomp_data` at a byte offset:
offset 0 is `nr`, offset 4 is `arch`, offset 16 + 8*i is the low word of
`args[i]` (little-endian x86-64). -/
def loadWord (d : SeccompData) (off : Nat) : Nat :=
  if off = 0 then d.nr % 2 ^ 32
  else if off = 4 then d.arch % 2 ^ 32
  else if off = 16 then d.args 0 % 2 ^ 32
  else if off = 24 then d.args 1 % 2 ^ 32
  else if off = 32 then d.args 2 % 2 ^ 32
  else if off = 40 then d.args 3 % 2 ^ 32
  else if off = 48 then d.args 4 % 2 ^ 32
  else if off = 56 then d.args 5 % 2 ^ 32
  else 0

/-- Interpreter for the (forward-jump-only) classic BPF fragment that the
seccomp macros generate.  The accumulator starts at the second argument;
falling off the end of the program yields `none` (the kernel verifier rejects
such programs, and the embedded filters never do). -/
def execFilter : List Instr → SeccompData → Nat → Option Nat
  | [], _, _ => none
  | Instr.ldw off :: rest, d, _ => execFilter rest d (loadWord d off)
  | Instr.andK k :: rest, d, a => execFilter rest d (Nat.land a k)
  | Instr.ret k :: _, _, _ => some k
  | Instr.jeq k jt jf :: rest, d, a =>
      execFilter (List.drop (if a = k then jt else jf) rest) d a
termination_by l _ _ => l.length
decreasing_by
  all_goals simp_wf
  all_goals split
  all_goals omega

/-- The `VALIDATE_ARCHITECTURE` macro: load the arch tag, compare with
`AUDIT_ARCH_X86_64`, and return `KILL` on mismatch. -/
def VALIDATE_ARCHITECTURE : List Instr :=
  [Instr.ldw 4, Instr.jeq AUDIT_ARCH_X86_64 1 0, Instr.ret SECCOMP_RET_KILL]

/-- The `EXAMINE_SYSCALL` macro: load the syscall number. -/
def EXAMINE_SYSCALL : List Instr := [Instr.ldw 0]

/-- The `ALLOW_SYSCALL(name)` macro: on syscall-number match return `ALLOW`,
otherwise skip past the return. -/
def ALLOW_SYSCALL (n : Nat) : List Instr :=
  [Instr.jeq n 0 1, Instr.ret SECCOMP_RET_ALLOW]

/-- The `TRACE_SYSCALL(name)` macro: on syscall-number match return `TRACE`,
otherwise skip past the return. -/
def TRACE_SYSCALL (n : Nat) : List Instr :=
  [Instr.jeq n 0 1, Instr.ret SECCOMP_RET_TRACE]

/-- The `KILL_PROCESS` macro: unconditional `KILL`. -/
def KILL_PROCESS : List Instr := [Instr.ret SECCOMP_RET_KILL]

/-- Concatenation of one macro block per listed syscall number, in order. -/
def chain (blk : Nat → List Instr) : List Nat → List Instr
  | [] => []
  | n :: ns => blk n ++ chain blk ns

/-- The x86-64 numbers of the syscalls named by the `ALLOW_SYSCALL` lines of
`install_syscall_filter` in `fiddlek/cpp/fiddle_secwrap.cpp`, in source order
(`readlink`, number 89, appears twice in the source): exit_group, exit, stat,
fstat, read, write, getdents, close, mmap, mprotect, munmap, brk, futex,
lseek, set_tid_address, set_robust_list, rt_sigaction, rt_sigprocmask,
getrlimit, arch_prctl, access, fstatfs, readlink, fadvise64, clock_gettime,
sysinfo, getuid, geteuid, getgid, getegid, fcntl, mremap, statfs, readlink,
getpid, gettid, tgkill, ftruncate, ioctl, sched_yield, clone, wait4,
getrandom, shmctl, prlimit64, dup, chmod, chown, newfstatat, pread64,
getdents64. -/
def fiddle_allow_list : List Nat :=
  [231, 60, 4, 5, 0, 1, 78, 3, 9, 10, 11, 12, 202, 8, 218, 273, 13, 14,
   97, 158, 21, 138, 89, 221, 228, 99, 102, 107, 104, 108, 72, 25, 137, 89,
   39, 186, 234, 77, 16, 24, 56, 61, 318, 31, 302, 32, 90, 92, 262, 17, 217]

/-- The x86-64 numbers of the syscalls named by the `TRACE_SYSCALL` lines of
`install_syscall_filter` in `fiddlek/cpp/fiddle_secwrap.cpp`, in source order:
mknod, link, rename, execve, mkdir, unlink, open, openat. -/
def fiddle_trace_list : List Nat := [133, 86, 82, 59, 83, 87, 2, 257]

/-- The BPF program assembled by `install_syscall_filter` in
`fiddlek/cpp/fiddle_secwrap.cpp`: architecture gate, syscall load, one allow
block per allowed syscall, one trace block per traced syscall, trailing
`KILL`. -/
def fiddle_filter : List Instr :=
  VALIDATE_ARCHITECTURE ++ EXAMINE_SYSCALL ++
  chain ALLOW_SYSCALL fiddle_allow_list ++
  chain TRACE_SYSCALL fiddle_trace_list ++
  KILL_PROCESS

/-!
Supervisor layer: the per-event dispatch of `do_trace` in both wrappers.
A trap event carries the tracee registers; string arguments are fetched from
the tracee's address space, abstracted as a function from address to the
bytes `read_string` returns for it.
-/

/-- The tracee registers the supervisor reads on a seccomp trap:
`orig_rax` (syscall number) and the first three argument registers
`rdi`, `rsi`, `rdx`. -/
structure Regs where
  orig_rax : Nat
  rdi : Nat
  rsi : Nat
  rdx : Nat

/-- x86-64 syscall number of `execve`. -/
def SYS_execve : Nat := 59

/-- x86-64 syscall number of `open`. -/
def SYS_open : Nat := 2

/-- x86-64 syscall number of `openat`. -/
def SYS_openat : Nat := 257

/-- x86-64 syscall number of `mkdir`. -/
def SYS_mkdir : Nat := 83

/-- x86-64 syscall number of `unlink`. -/
def SYS_unlink : Nat := 87

/-- x86-64 syscall number of `mknod`. -/
def SYS_mknod : Nat := 133

/-- x86-64 syscall number of `link`. -/
def SYS_link : Nat := 86

/-- x86-64 syscall number of `rename`. -/
def SYS_rename : Nat := 82

/-- The `O_RDONLY` access mode (0). -/
def O_RDONLY : Nat := 0

/-- The `O_ACCMODE` mask (3), the two low access-mode bits of open flags. -/
def O_ACCMODE : Nat := 3

/-- The `mkdir_allowed_prefixes` table of `fiddlek/cpp/fiddle_secwrap.cpp`. -/
def mkdir_allowed_prefixes : List (List Nat) :=
  [str "/tmp", str "/var/cache/fontconfig"]

/-- The `unlink_allowed_prefixes` table of `fiddlek/cpp/fiddle_secwrap.cpp`. -/
def unlink_allowed_prefixes : List (List Nat) := [str "/tmp"]

/-- The `writing_allowed_prefixes` table of `fiddlek/cpp/fiddle_secwrap.cpp`. -/
def writing_allowed_prefixes : List (List Nat) :=
  [str "/tmp/", str "/var/cache/fontconfig"]

/-- The `link_allowed_prefixes` table of `fiddlek/cpp/fiddle_secwrap.cpp`. -/
def link_allowed_prefixes : List (List Nat) := [str "/tmp/"]

/-- The `mknod_allowed_prefixes` table of `fiddlek/cpp/fiddle_secwrap.cpp`. -/
def mknod_allowed_prefixes : List (List Nat) := [str "/tmp/"]

/-- The `rename_allowed_prefixes` table of `fiddlek/cpp/fiddle_secwrap.cpp`. -/
def rename_allowed_prefixes : List (List Nat) := [str "/tmp/"]

/-- The `readonly_allowed_prefixes` table of `fiddlek/cpp/fiddle_secwrap.cpp`,
whose first entry is the empty string. -/
def readonly_allowed_prefixes : List (List Nat) :=
  [[], str "/etc/fonts", str "/etc/fiddle/", str "/etc/glvnd/",
   str "/etc/ld.so.cache", str "/lib/", str "/mnt/pd0/", str "/tmp/",
   str "/usr/lib/", str "/usr/local/share/fonts", str "/usr/local/lib",
   str "/usr/share/", str "/sys/devices/", str "/var/cache/fontconfig",
   str "skia.conf"]

/-- Sequencing of two path checks as in the `link`/`rename` branches: the
first failing check kills (via `child_fail`, which does not return); only
when the first passes is the second consulted. -/
def andThen (a b : TraceAction) : TraceAction :=
  match a with
  | TraceAction.kill => TraceAction.kill
  | TraceAction.resume => b

/-- The seccomp-trap dispatch of `do_trace` in `fiddlek/cpp/fiddle_secwrap.cpp`
(the `if (syscall == ...)` chain).  `readStr` abstracts
`read_string(child, addr)`; `allowed` is `allowed_exec`, the supervisor's
first positional argument.  The final branch is the `WEIRD SYSTEM CALL`
case, which calls `child_fail`. -/
def fiddle_handle_trap (readStr : Nat → List Nat) (allowed : List Nat)
    (regs : Regs) : TraceAction :=
  if regs.orig_rax = SYS_execve then
    (if readStr regs.rdi = allowed then TraceAction.resume else TraceAction.kill)
  else if regs.orig_rax = SYS_open then
    test_against_prefixes
      (if Nat.land regs.rsi O_ACCMODE = O_RDONLY then readonly_allowed_prefixes
       else writing_allowed_prefixes)
      (readStr regs.rdi)
  else if regs.orig_rax = SYS_openat then
    test_against_prefixes
      (if Nat.land regs.rdx O_ACCMODE = O_RDONLY then readonly_allowed_prefixes
       else writing_allowed_prefixes)
      (readStr regs.rsi)
  else if regs.orig_rax = SYS_mkdir then
    test_against_prefixes mkdir_allowed_prefixes (readStr regs.rdi)
  else if regs.orig_rax = SYS_unlink then
    test_against_prefixes unlink_allowed_prefixes (readStr regs.rdi)
  else if regs.orig_rax = SYS_mknod then
    test_against_prefixes mknod_allowed_prefixes (readStr regs.rdi)
  else if regs.orig_rax = SYS_link then
    andThen (test_against_prefixes link_allowed_prefixes (readStr regs.rdi))
            (test_against_prefixes link_allowed_prefixes (readStr regs.rsi))
  else if regs.orig_rax = SYS_rename then
    andThen (test_against_prefixes rename_allowed_prefixes (readStr regs.rdi))
            (test_against_prefixes rename_allowed_prefixes (readStr regs.rsi))
  else TraceAction.kill

/-- The `allowed_prefixes` table local to the `SYS_open` branch of
`webtry/fiddle_secwrap.cpp`. -/
def webtry_allowed_prefixes : List (List Nat) :=
  [str "/usr/share/fonts", str "/etc/ld.so.cache", str "/lib/",
   str "/usr/lib/", str "skia.conf"]

/-- The seccomp-trap dispatch of `do_trace` in `webtry/fiddle_secwrap.cpp`.
Its `open`/`openat` branches reject any path containing `".."`, then any
non-read-only access mode, then check a prefix list; the final branch only
logs the unexpected syscall and falls through to `PTRACE_CONT`. -/
def webtry_handle_trap (readStr : Nat → List Nat) (allowed : List Nat)
    (regs : Regs) : TraceAction :=
  if regs.orig_rax = SYS_execve then
    (if readStr regs.rdi = allowed then TraceAction.resume else TraceAction.kill)
  else if regs.orig_rax = SYS_open then
    (let name := readStr regs.rdi
     if containsSub ddot name then TraceAction.kill
     else if Nat.land regs.rsi O_ACCMODE ≠ O_RDONLY then TraceAction.kill
     else if (webtry_allowed_prefixes.find? (fun p => p.isPrefixOf name)).isSome then
       TraceAction.resume
     else TraceAction.kill)
  else if regs.orig_rax = SYS_openat then
    (let name := readStr regs.rsi
     if containsSub ddot name then TraceAction.kill
     else if Nat.land regs.rdx O_ACCMODE ≠ O_RDONLY then TraceAction.kill
     else if (str "/usr/share/fonts").isPrefixOf name then TraceAction.resume
     else TraceAction.kill)
  else TraceAction.resume

/-- Exit status actually reported to the parent of a process calling
`exit(v)` in C: the low byte of `v`. -/
def cExitStatus (v : Int) : Nat := (v.emod 256).toNat

/-- Classification of a `waitpid` status as `do_trace` inspects it. -/
inductive WaitStatus where
  | exited (code : Nat)
  | signaled (sig : Nat)
  | seccompTrap (regs : Regs)
  | otherStop

/-- One supervisor reaction in the `do_trace` loop. -/
inductive SupOutcome where
  | exitSup (code : Nat)
  | killChildAndExit (sig : Nat) (code : Nat)
  | continueLoop
deriving DecidableEq, Repr

/-- One iteration of the `do_trace` wait loop of
`fiddlek/cpp/fiddle_secwrap.cpp`: clean tracee exit returns 0; a tracee
killed by a signal returns 1; on a seccomp trap the dispatch either resumes
the tracee (`PTRACE_CONT`) or reaches `child_fail`, which sends `SIGKILL`
(signal 9) to the tracee and calls `exit(-1)`; any other stop is resumed. -/
def fiddle_do_trace_step (readStr : Nat → List Nat) (allowed : List Nat) :
    WaitStatus → SupOutcome
  | WaitStatus.exited _ => SupOutcome.exitSup 0
  | WaitStatus.signaled _ => SupOutcome.exitSup 1
  | WaitStatus.seccompTrap regs =>
      match fiddle_handle_trap readStr allowed regs with
      | TraceAction.resume => SupOutcome.continueLoop
      | TraceAction.kill => SupOutcome.killChildAndExit 9 (cExitStatus (-1))
  | WaitStatus.otherStop => SupOutcome.continueLoop

/-- One iteration of the `do_trace` wait loop of `webtry/fiddle_secwrap.cpp`:
as for fiddlek, but the `CHILD_FAIL` macro calls `exit(1)`. -/
def webtry_do_trace_step (readStr : Nat → List Nat) (allowed : List Nat) :
    WaitStatus → SupOutcome
  | WaitStatus.exited _ => SupOutcome.exitSup 0
  | WaitStatus.signaled _ => SupOutcome.exitSup 1
  | WaitStatus.seccompTrap regs =>
      match webtry_handle_trap readStr allowed regs with
      | TraceAction.resume => SupOutcome.continueLoop
      | TraceAction.kill => SupOutcome.killChildAndExit 9 1
  | WaitStatus.otherStop => SupOutcome.continueLoop

/-!
String reads: `read_string` copies a NUL-terminated string out of the
tracee's address space one 8-byte word at a time via `PTRACE_PEEKDATA`.
A peek either fails (nonzero errno) or yields a 64-bit word; the tracee's
readable memory is abstracted as `peek : Nat → Option Nat`.  The C loop has
no iteration bound, so the embedding carries explicit fuel: `none` means the
loop has not finished within `fuel` iterations.
-/

/-- The eight bytes of a 64-bit word in memory order (x86-64 little-endian),
as `memcpy(val + read, &tmp, sizeof tmp)` lays them down. -/
def wordBytes (w : Nat) : List Nat :=
  (List.range 8).map (fun j => w / 256 ^ j % 256)

/-- Embedding of `read_string` from `fiddlek/cpp/fiddle_secwrap.cpp`, peeking
at `addr`, `addr + 8`, ...: on a failed peek store a terminating NUL and
stop; on a word containing a NUL copy it whole and stop (`memchr`); otherwise
copy the word and continue.  Returns the buffer contents written, or `none`
when `fuel` iterations did not reach a stopping condition. -/
def read_stringF (peek : Nat → Option Nat) : Nat → Nat → Option (List Nat)
  | 0, _ => none
  | fuel + 1, addr =>
    match peek addr with
    | none => some [0]
    | some w =>
      if 0 ∈ wordBytes w then some (wordBytes w)
      else (read_stringF peek fuel (addr + 8)).map (fun t => wordBytes w ++ t)

/-- The tracee memory bytes of the `k` words at `addr`, `addr + 8`, ... -/
def memBytes (peek : Nat → Option Nat) : Nat → Nat → List Nat
  | _, 0 => []
  | addr, k + 1 => wordBytes ((peek addr).getD 0) ++ memBytes peek (addr + 8) k

/-- The first `k` words at `addr` all peek successfully and contain no NUL
byte. -/
def nulFreeRun (peek : Nat → Option Nat) : Nat → Nat → Prop
  | _, 0 => True
  | addr, k + 1 =>
      (∃ w, peek addr = some w ∧ ¬ 0 ∈ wordBytes w) ∧ nulFreeRun peek (addr + 8) k

/-!
Child bootstrap: the observable sequence of actions `do_child` performs,
for each combination of success of the two `prctl` calls and of `execvp`.
-/

/-- The Linux resource identifier `RLIMIT_CPU`. -/
def RLIMIT_CPU : Nat := 0

/-- The Linux resource identifier `RLIMIT_AS`. -/
def RLIMIT_AS : Nat := 9

/-- Observable actions of the child bootstrap (`do_child` plus the functions
it calls), in the order the code performs them. -/
inductive ChildEvent where
  | traceme
  | stopSelf
  | setrlimit (which cur maxv : Nat)
  | noNewPrivs
  | seccompFilter
  | execveCall
  | killSelf (sig : Nat)
  | exitChild (code : Nat)
deriving DecidableEq, Repr

/-- The two `setrlimit` calls of `setLimits` in
`fiddlek/cpp/fiddle_secwrap.cpp`: 20 CPU seconds and 1000000000 bytes of
address space, soft = hard. -/
def fiddle_setLimits_events : List ChildEvent :=
  [ChildEvent.setrlimit RLIMIT_CPU 20 20,
   ChildEvent.setrlimit RLIMIT_AS 1000000000 1000000000]

/-- The two `setrlimit` calls of `setLimits` in `webtry/fiddle_secwrap.cpp`:
5 CPU seconds and 150000000 bytes of address space, soft = hard. -/
def webtry_setLimits_events : List ChildEvent :=
  [ChildEvent.setrlimit RLIMIT_CPU 5 5,
   ChildEvent.setrlimit RLIMIT_AS 150000000 150000000]

/-- Event trace of `do_child` in `fiddlek/cpp/fiddle_secwrap.cpp` after a
successful `PTRACE_TRACEME`, parameterized by whether each fallible step
succeeds: `TRACEME`, raise `SIGSTOP`, `setLimits`, then
`install_syscall_filter` (the `NO_NEW_PRIVS` prctl, and on its success the
seccomp prctl); when the filter is in place, `execvp`; if `execvp` returns,
the child sends itself `SIGKILL`.  A failed filter install makes `do_child`
return -1, which the process exits with. -/
def fiddle_do_child_events (nnpOk seccompOk execOk : Bool) : List ChildEvent :=
  [ChildEvent.traceme, ChildEvent.stopSelf] ++ fiddle_setLimits_events ++
  [ChildEvent.noNewPrivs] ++
  (if nnpOk then
    [ChildEvent.seccompFilter] ++
    (if seccompOk then
      [ChildEvent.execveCall] ++
      (if execOk then [] else [ChildEvent.killSelf 9])
     else [ChildEvent.exitChild (cExitStatus (-1))])
   else [ChildEvent.exitChild (cExitStatus (-1))])

/-- Event trace of `do_child` in `webtry/fiddle_secwrap.cpp`: as for fiddlek
up to the filter, but a failed install returns 1, and the child simply
returns `execvp`'s result (-1) when the exec fails — it never signals
itself. -/
def webtry_do_child_events (nnpOk seccompOk execOk : Bool) : List ChildEvent :=
  [ChildEvent.traceme, ChildEvent.stopSelf] ++ webtry_setLimits_events ++
  [ChildEvent.noNewPrivs] ++
  (if nnpOk then
    [ChildEvent.seccompFilter] ++
    (if seccompOk then
      [ChildEvent.execveCall] ++
      (if execOk then [] else [ChildEvent.exitChild (cExitStatus (-1))])
     else [ChildEvent.exitChild 1])
   else [ChildEvent.exitChild 1])

/-- Event `a` occurs in `l` strictly before event `b`. -/
abbrev eventBefore (a b : ChildEvent) (l : List ChildEvent) : Prop :=
  a ∈ l ∧ b ∈ l ∧ l.indexOf a < l.indexOf b

/-!
Theorems.
-/

theorem execFilter_allow_chain (ns : List Nat) (rest : List Instr) (d : SeccompData) (a : Nat) :
    execFilter (chain ALLOW_SYSCALL ns ++ rest) d a =
      if a ∈ ns then some SECCOMP_RET_ALLOW else execFilter rest d a := by
  induction ns with
  | nil => simp [chain]
  | cons n ns ih =>
    by_cases h : a = n
    · simp [chain, ALLOW_SYSCALL, execFilter, h]
    · simp [chain, ALLOW_SYSCALL, execFilter, h, ih]

theorem execFilter_trace_chain (ns : List Nat) (rest : List Instr) (d : SeccompData) (a : Nat) :
    execFilter (chain TRACE_SYSCALL ns ++ rest) d a =
      if a ∈ ns then some SECCOMP_RET_TRACE else execFilter rest d a := by
  induction ns with
  | nil => simp [chain]
  | cons n ns ih =>
    by_cases h : a = n
    · simp [chain, TRACE_SYSCALL, execFilter, h]
    · simp [chain, TRACE_SYSCALL, execFilter, h, ih]

/-- Architecture gate: with a 32-bit arch tag, `VALIDATE_ARCHITECTURE`
either falls through (tag matches x86-64, accumulator holds the tag) or
returns KILL. -/
theorem execFilter_validate_arch (rest : List Instr) (d : SeccompData) (a : Nat)
    (h2 : d.arch < 2 ^ 32) :
    execFilter (VALIDATE_ARCHITECTURE ++ rest) d a =
      if d.arch = AUDIT_ARCH_X86_64 then execFilter rest d d.arch
      else some SECCOMP_RET_KILL := by
  have e2 : d.arch % 2 ^ 32 = d.arch := Nat.mod_eq_of_lt h2
  simp only [VALIDATE_ARCHITECTURE, List.cons_append, execFilter]
  simp only [loadWord, e2]
  norm_num
  by_cases h : d.arch = AUDIT_ARCH_X86_64
  · simp [h, execFilter]
  · simp [h, execFilter]

/-- Syscall load: `EXAMINE_SYSCALL` replaces the accumulator by the (32-bit)
syscall number and falls through. -/
theorem execFilter_examine (rest : List Instr) (d : SeccompData) (a : Nat)
    (h1 : d.nr < 2 ^ 32) :
    execFilter (EXAMINE_SYSCALL ++ rest) d a = execFilter rest d d.nr := by
  have e1 : d.nr % 4294967296 = d.nr := Nat.mod_eq_of_lt (by simpa using h1)
  simp [EXAMINE_SYSCALL, execFilter, loadWord, e1]

/-- C2: every seccomp input with an architecture tag other than the x86-64
value is KILLed before syscall dispatch; otherwise the verdict is ALLOW for
members of the declared allow set, TRACE for members of the declared trace
set, and KILL for everything else via the trailing terminal instruction. -/
theorem fiddle_filter_verdict (d : SeccompData)
    (h1 : d.nr < 2 ^ 32) (h2 : d.arch < 2 ^ 32) :
    execFilter fiddle_filter d 0 =
      some (if d.arch ≠ AUDIT_ARCH_X86_64 then SECCOMP_RET_KILL
            else if d.nr ∈ fiddle_allow_list then SECCOMP_RET_ALLOW
            else if d.nr ∈ fiddle_trace_list then SECCOMP_RET_TRACE
            else SECCOMP_RET_KILL) := by
  rw [fiddle_filter]
  simp only [List.append_assoc]
  rw [execFilter_validate_arch _ _ _ h2]
  by_cases harch : d.arch = AUDIT_ARCH_X86_64
  · rw [if_pos harch, execFilter_examine _ _ _ h1,
      execFilter_allow_chain, execFilter_trace_chain]
    by_cases ha : d.nr ∈ fiddle_allow_list
    · simp [harch, ha]
    · by_cases ht : d.nr ∈ fiddle_trace_list
      · simp [harch, ha, ht]
      · simp [harch, ha, ht, KILL_PROCESS, execFilter]
  · simp [harch]

theorem fiddle_filter_verdict_witness :
    execFilter fiddle_filter ⟨59, 3221225534, fun _ => 0⟩ 0 = some SECCOMP_RET_TRACE := by
  have h := fiddle_filter_verdict ⟨59, 3221225534, fun _ => 0⟩ (by norm_num) (by norm_num)
  rw [h]; decide


/-- C1: the supervisor path check accepts a path iff it does not contain the
substring "../" and some configured prefix (checked in declaration order via
the first match) is a byte-exact prefix of it; an empty-string prefix matches
every path; a path containing "../" is always killed. -/
theorem test_against_prefixes_spec (prefixes : List (List Nat)) (name : List Nat) :
    (test_against_prefixes prefixes name = TraceAction.resume ↔
      containsSub ddSlash name = false ∧ ∃ p ∈ prefixes, p.isPrefixOf name = true) ∧
    (containsSub ddSlash name = true →
      test_against_prefixes prefixes name = TraceAction.kill) ∧
    ([] ∈ prefixes → containsSub ddSlash name = false →
      test_against_prefixes prefixes name = TraceAction.resume) := by
  refine ⟨?_, ?_, ?_⟩
  · by_cases hc : containsSub ddSlash name
    · simp [test_against_prefixes, hc]
    · simp [test_against_prefixes, hc, List.find?_isSome]
  · intro hc
    simp [test_against_prefixes, hc]
  · intro hmem hc
    have : ([] : List Nat).isPrefixOf name = true := by
      cases name <;> rfl
    simp only [test_against_prefixes, hc, Bool.false_eq_true, if_false]
    rw [if_pos]
    rw [List.find?_isSome]
    exact ⟨[], hmem, this⟩

theorem test_against_prefixes_spec_witness :
    test_against_prefixes readonly_allowed_prefixes (str "/etc/passwd") =
      TraceAction.resume := by
  exact (test_against_prefixes_spec readonly_allowed_prefixes (str "/etc/passwd")).2.2
    (by decide) (by decide)

/-- C3: on a traced execve event in either wrapper, the tracee is resumed iff
the string read at the first argument register equals the allowed executable
path; any mismatch kills. -/
theorem execve_target_check (readStr : Nat → List Nat) (allowed : List Nat)
    (regs : Regs) (h : regs.orig_rax = SYS_execve) :
    (fiddle_handle_trap readStr allowed regs = TraceAction.resume ↔
      readStr regs.rdi = allowed) ∧
    (webtry_handle_trap readStr allowed regs = TraceAction.resume ↔
      readStr regs.rdi = allowed) := by
  by_cases he : readStr regs.rdi = allowed <;>
    constructor <;> simp [fiddle_handle_trap, webtry_handle_trap, h, he]

theorem execve_target_check_witness :
    fiddle_handle_trap (fun _ => str "/bin/sh") (str "/opt/fiddle_run")
      ⟨59, 0, 0, 0⟩ = TraceAction.kill := by
  have h := (execve_target_check (fun _ => str "/bin/sh") (str "/opt/fiddle_run")
    ⟨59, 0, 0, 0⟩ rfl).1
  cases h0 : fiddle_handle_trap (fun _ => str "/bin/sh") (str "/opt/fiddle_run")
      ⟨59, 0, 0, 0⟩ with
  | resume => exact absurd (h.mp h0) (by decide)
  | kill => rfl

/-- C4: the fiddlek trap handler validates a traced open path against the
readonly prefix list when the access-mode bits of the flags equal O_RDONLY
and against the writable prefix list otherwise; for openat the path is in
the second and the flags in the third argument register. -/
theorem open_prefix_list_selection (readStr : Nat → List Nat) (allowed : List Nat)
    (regs : Regs) :
    (regs.orig_rax = SYS_open →
      fiddle_handle_trap readStr allowed regs =
        test_against_prefixes
          (if Nat.land regs.rsi O_ACCMODE = O_RDONLY then readonly_allowed_prefixes
           else writing_allowed_prefixes)
          (readStr regs.rdi)) ∧
    (regs.orig_rax = SYS_openat →
      fiddle_handle_trap readStr allowed regs =
        test_against_prefixes
          (if Nat.land regs.rdx O_ACCMODE = O_RDONLY then readonly_allowed_prefixes
           else writing_allowed_prefixes)
          (readStr regs.rsi)) := by
  constructor <;> intro h <;>
    simp [fiddle_handle_trap, h, SYS_execve, SYS_open, SYS_openat]

theorem open_prefix_list_selection_witness :
    fiddle_handle_trap (fun _ => str "/tmp/out.png") [] ⟨2, 10, 577, 0⟩ =
      test_against_prefixes
        (if Nat.land 577 O_ACCMODE = O_RDONLY then readonly_allowed_prefixes
         else writing_allowed_prefixes)
        (str "/tmp/out.png") := by
  exact (open_prefix_list_selection (fun _ => str "/tmp/out.png") [] ⟨2, 10, 577, 0⟩).1 rfl

/-- C5 (amended): both supervisors exit 0 on tracee clean exit and 1 when
the tracee dies by a signal; a policy violation sends the tracee SIGKILL and
exits the supervisor nonzero — with status 1 in webtry (`exit(1)`), but with
status 255 in fiddlek, whose `child_fail` calls `exit(-1)`. -/
theorem supervisor_exit_codes (readStr : Nat → List Nat) (allowed : List Nat) :
    (∀ c, fiddle_do_trace_step readStr allowed (WaitStatus.exited c) =
      SupOutcome.exitSup 0) ∧
    (∀ sg, fiddle_do_trace_step readStr allowed (WaitStatus.signaled sg) =
      SupOutcome.exitSup 1) ∧
    (∀ regs, fiddle_handle_trap readStr allowed regs = TraceAction.kill →
      fiddle_do_trace_step readStr allowed (WaitStatus.seccompTrap regs) =
        SupOutcome.killChildAndExit 9 (cExitStatus (-1)) ∧
      cExitStatus (-1) = 255 ∧ cExitStatus (-1) ≠ 0) ∧
    (∀ c, webtry_do_trace_step readStr allowed (WaitStatus.exited c) =
      SupOutcome.exitSup 0) ∧
    (∀ sg, webtry_do_trace_step readStr allowed (WaitStatus.signaled sg) =
      SupOutcome.exitSup 1) ∧
    (∀ regs, webtry_handle_trap readStr allowed regs = TraceAction.kill →
      webtry_do_trace_step readStr allowed (WaitStatus.seccompTrap regs) =
        SupOutcome.killChildAndExit 9 1) := by
  refine ⟨fun c => rfl, fun sg => rfl, ?_, fun c => rfl, fun sg => rfl, ?_⟩
  · intro regs h
    refine ⟨?_, by decide, by decide⟩
    simp [fiddle_do_trace_step, h]
  · intro regs h
    simp [webtry_do_trace_step, h]

theorem supervisor_exit_codes_witness :
    fiddle_do_trace_step (fun _ => str "/bin/sh") (str "/opt/fiddle_run")
      (WaitStatus.seccompTrap ⟨59, 0, 0, 0⟩) =
      SupOutcome.killChildAndExit 9 (cExitStatus (-1)) := by
  exact ((supervisor_exit_codes (fun _ => str "/bin/sh")
    (str "/opt/fiddle_run")).2.2.1 ⟨59, 0, 0, 0⟩ (by decide)).1

/-- C5 counterexample: a concrete policy violation (execve of "/bin/sh" when
"/opt/fiddle_run" is allowed) makes the fiddlek supervisor kill the tracee
and exit with status 255, not 1 as claimed. -/
theorem fiddle_violation_exit_status_not_one :
    fiddle_do_trace_step (fun _ => str "/bin/sh") (str "/opt/fiddle_run")
      (WaitStatus.seccompTrap ⟨59, 0, 0, 0⟩) =
      SupOutcome.killChildAndExit 9 255 ∧ (255 : Nat) ≠ 1 := by decide

/-- C7 (amended): a seccomp trap whose syscall number is none of the eight
handled traced syscalls makes the fiddlek supervisor log and kill the tracee
(never resuming it), while the webtry supervisor only logs and resumes the
tracee. -/
theorem weird_syscall_handling (readStr : Nat → List Nat) (allowed : List Nat)
    (regs : Regs)
    (h : ¬ regs.orig_rax ∈ [SYS_execve, SYS_open, SYS_openat, SYS_mkdir,
      SYS_unlink, SYS_mknod, SYS_link, SYS_rename]) :
    fiddle_handle_trap readStr allowed regs = TraceAction.kill ∧
    fiddle_do_trace_step readStr allowed (WaitStatus.seccompTrap regs) =
      SupOutcome.killChildAndExit 9 (cExitStatus (-1)) ∧
    webtry_handle_trap readStr allowed regs = TraceAction.resume ∧
    webtry_do_trace_step readStr allowed (WaitStatus.seccompTrap regs) =
      SupOutcome.continueLoop := by
  simp only [List.mem_cons, List.mem_singleton, not_or] at h
  obtain ⟨h1, h2, h3, h4, h5, h6, h7, h8⟩ := h
  have hf : fiddle_handle_trap readStr allowed regs = TraceAction.kill := by
    simp [fiddle_handle_trap, h1, h2, h3, h4, h5, h6, h7, h8]
  have hw : webtry_handle_trap readStr allowed regs = TraceAction.resume := by
    simp [webtry_handle_trap, h1, h2, h3]
  exact ⟨hf, by simp [fiddle_do_trace_step, hf], hw, by simp [webtry_do_trace_step, hw]⟩

theorem weird_syscall_handling_witness :
    fiddle_handle_trap (fun _ => []) [] ⟨42, 0, 0, 0⟩ = TraceAction.kill := by
  exact (weird_syscall_handling (fun _ => []) [] ⟨42, 0, 0, 0⟩ (by decide)).1

/-- C7 counterexample: on a trap for syscall 42 (not a handled traced
syscall) the webtry supervisor resumes the tracee instead of killing it. -/
theorem webtry_weird_syscall_resumes :
    webtry_handle_trap (fun _ => []) [] ⟨42, 0, 0, 0⟩ = TraceAction.resume ∧
    webtry_do_trace_step (fun _ => []) [] (WaitStatus.seccompTrap ⟨42, 0, 0, 0⟩) =
      SupOutcome.continueLoop := by decide

/-- C10: in the webtry supervisor every traced open/openat path containing
the substring ".." is killed, for every access mode and regardless of any
prefix list; this is strictly broader than rejecting "../": the path
"/tmp/a..b" contains ".." but not "../" and is still killed. -/
theorem webtry_dotdot_reject (readStr : Nat → List Nat) (allowed : List Nat)
    (regs : Regs) :
    (regs.orig_rax = SYS_open → containsSub ddot (readStr regs.rdi) = true →
      webtry_handle_trap readStr allowed regs = TraceAction.kill) ∧
    (regs.orig_rax = SYS_openat → containsSub ddot (readStr regs.rsi) = true →
      webtry_handle_trap readStr allowed regs = TraceAction.kill) ∧
    (containsSub ddot (str "/tmp/a..b") = true ∧
      containsSub ddSlash (str "/tmp/a..b") = false) := by
  refine ⟨?_, ?_, by decide⟩ <;> intro h hdd <;>
    simp [webtry_handle_trap, h, hdd, SYS_execve, SYS_open, SYS_openat]

theorem webtry_dotdot_reject_witness :
    webtry_handle_trap (fun _ => str "/tmp/a..b") [] ⟨2, 0, 0, 0⟩ =
      TraceAction.kill := by
  exact (webtry_dotdot_reject (fun _ => str "/tmp/a..b") [] ⟨2, 0, 0, 0⟩).1
    rfl (by decide)

/-- C8 (amended): in both child bootstraps, both setrlimit calls precede the
NO_NEW_PRIVS prctl, NO_NEW_PRIVS precedes the seccomp filter install, and
limits and filter are all in place before execve is attempted; in fiddlek a
returning execve is immediately followed by the child SIGKILLing itself
(webtry's child instead returns, see the counterexample). -/
theorem child_bootstrap_order (n s e : Bool) :
    (∀ ev ∈ fiddle_setLimits_events,
      eventBefore ev ChildEvent.noNewPrivs (fiddle_do_child_events n s e)) ∧
    (ChildEvent.seccompFilter ∈ fiddle_do_child_events n s e →
      eventBefore ChildEvent.noNewPrivs ChildEvent.seccompFilter
        (fiddle_do_child_events n s e)) ∧
    (ChildEvent.execveCall ∈ fiddle_do_child_events n s e →
      eventBefore ChildEvent.seccompFilter ChildEvent.execveCall
        (fiddle_do_child_events n s e) ∧
      ∀ ev ∈ fiddle_setLimits_events,
        eventBefore ev ChildEvent.execveCall (fiddle_do_child_events n s e)) ∧
    (ChildEvent.execveCall ∈ fiddle_do_child_events n s e → e = false →
      ChildEvent.killSelf 9 ∈ fiddle_do_child_events n s e ∧
      (fiddle_do_child_events n s e).indexOf (ChildEvent.killSelf 9) =
        (fiddle_do_child_events n s e).indexOf ChildEvent.execveCall + 1) ∧
    (∀ ev ∈ webtry_setLimits_events,
      eventBefore ev ChildEvent.noNewPrivs (webtry_do_child_events n s e)) ∧
    (ChildEvent.seccompFilter ∈ webtry_do_child_events n s e →
      eventBefore ChildEvent.noNewPrivs ChildEvent.seccompFilter
        (webtry_do_child_events n s e)) ∧
    (ChildEvent.execveCall ∈ webtry_do_child_events n s e →
      eventBefore ChildEvent.seccompFilter ChildEvent.execveCall
        (webtry_do_child_events n s e) ∧
      ∀ ev ∈ webtry_setLimits_events,
        eventBefore ev ChildEvent.execveCall (webtry_do_child_events n s e)) := by
  cases n <;> cases s <;> cases e <;>
    exact ⟨by decide, by decide, by decide, by decide, by decide, by decide, by decide⟩

theorem child_bootstrap_order_witness :
    eventBefore ChildEvent.seccompFilter ChildEvent.execveCall
      (fiddle_do_child_events true true false) := by
  exact ((child_bootstrap_order true true false).2.2.1 (by decide)).1

/-- C8 counterexample: in the webtry bootstrap with a failing execve the
execve is attempted but the child never sends itself any signal — it just
returns execvp's value, so the parent sees a normal exit, not a signal
death. -/
theorem webtry_no_sigkill_after_exec :
    ChildEvent.execveCall ∈ webtry_do_child_events true true false ∧
    (webtry_do_child_events true true false).all
      (fun ev => match ev with
        | ChildEvent.killSelf _ => false
        | _ => true) = true ∧
    ChildEvent.exitChild 255 ∈ webtry_do_child_events true true false := by decide

/-- C9 (amended): every setrlimit performed by either bootstrap has soft
equal to hard; fiddlek sets RLIMIT_CPU to 20 seconds and RLIMIT_AS to
1000000000 bytes (1 GB decimal, not 1 GiB), webtry sets RLIMIT_CPU to 5
seconds and RLIMIT_AS to 150000000 bytes (150 MB decimal, not 150 MiB), and
all four calls are performed. -/
theorem rlimit_values (n s e : Bool) :
    (∀ w c m, ChildEvent.setrlimit w c m ∈ fiddle_do_child_events n s e →
      c = m ∧ ((w = RLIMIT_CPU ∧ c = 20) ∨ (w = RLIMIT_AS ∧ c = 1000000000))) ∧
    (∀ w c m, ChildEvent.setrlimit w c m ∈ webtry_do_child_events n s e →
      c = m ∧ ((w = RLIMIT_CPU ∧ c = 5) ∨ (w = RLIMIT_AS ∧ c = 150000000))) ∧
    ChildEvent.setrlimit RLIMIT_CPU 20 20 ∈ fiddle_do_child_events n s e ∧
    ChildEvent.setrlimit RLIMIT_AS 1000000000 1000000000 ∈
      fiddle_do_child_events n s e ∧
    ChildEvent.setrlimit RLIMIT_CPU 5 5 ∈ webtry_do_child_events n s e ∧
    ChildEvent.setrlimit RLIMIT_AS 150000000 150000000 ∈
      webtry_do_child_events n s e := by
  cases n <;> cases s <;> cases e <;>
    refine ⟨?_, ?_, by decide, by decide, by decide, by decide⟩ <;>
    · intro w c m h
      simp [fiddle_do_child_events, webtry_do_child_events, fiddle_setLimits_events,
        webtry_setLimits_events, RLIMIT_CPU, RLIMIT_AS, cExitStatus] at h
      rcases h with ⟨hw, hc, hm⟩ | ⟨hw, hc, hm⟩ <;> subst hw <;> subst hc <;> subst hm <;>
        simp [RLIMIT_CPU, RLIMIT_AS]

theorem rlimit_values_witness :
    (20 : Nat) = 20 ∧ ((RLIMIT_CPU = RLIMIT_CPU ∧ (20 : Nat) = 20) ∨
      (RLIMIT_CPU = RLIMIT_AS ∧ (20 : Nat) = 1000000000)) := by
  exact (rlimit_values true true true).1 RLIMIT_CPU 20 20 (by decide)

/-- C9 counterexample: the fiddlek bootstrap sets RLIMIT_AS to 1000000000
bytes, and performs no setrlimit of 1 GiB (1073741824 bytes); 1 GB decimal
and 1 GiB differ. -/
theorem fiddle_as_limit_not_gib :
    ChildEvent.setrlimit RLIMIT_AS 1000000000 1000000000 ∈
      fiddle_do_child_events true true true ∧
    ChildEvent.setrlimit RLIMIT_AS 1073741824 1073741824 ∉
      fiddle_do_child_events true true true ∧
    (1000000000 : Nat) ≠ 1073741824 := by decide

theorem takeWhile_append_nulFree (l r : List Nat) (h : ∀ b ∈ l, b ≠ 0) :
    (l ++ r).takeWhile (fun b => b != 0) = l ++ r.takeWhile (fun b => b != 0) := by
  induction l with
  | nil => simp
  | cons a t ih =>
    have ha : (a != 0) = true := by
      have := h a (List.mem_cons_self a t)
      simpa using this
    simp only [List.cons_append, List.takeWhile_cons, ha, if_true]
    rw [ih (fun b hb => h b (List.mem_cons_of_mem a hb))]

theorem nulFreeRun_not_mem (peek : Nat → Option Nat) :
    ∀ k addr, nulFreeRun peek addr k → ∀ b ∈ memBytes peek addr k, b ≠ 0 := by
  intro k
  induction k with
  | zero =>
    intro addr _ b hb
    simp [memBytes] at hb
  | succ k ih =>
    intro addr h b hb
    obtain ⟨⟨w, hw, hz⟩, hrest⟩ := h
    simp only [memBytes, hw, Option.getD_some, List.mem_append] at hb
    rcases hb with hb | hb
    · intro hb0
      exact hz (hb0 ▸ hb)
    · exact ih (addr + 8) hrest b hb

theorem read_stringF_sound (peek : Nat → Option Nat) :
    ∀ fuel addr buf, read_stringF peek fuel addr = some buf →
      0 ∈ buf ∧
      ∃ k, nulFreeRun peek addr k ∧
        ((peek (addr + 8 * k) = none ∧ buf = memBytes peek addr k ++ [0] ∧
           buf.takeWhile (fun b => b != 0) = memBytes peek addr k) ∨
         (∃ w, peek (addr + 8 * k) = some w ∧ 0 ∈ wordBytes w ∧
           buf = memBytes peek addr k ++ wordBytes w ∧
           buf.takeWhile (fun b => b != 0) =
             memBytes peek addr k ++ (wordBytes w).takeWhile (fun b => b != 0))) := by
  intro fuel
  induction fuel with
  | zero =>
    intro addr buf h
    simp [read_stringF] at h
  | succ fuel ih =>
    intro addr buf h
    cases hp : peek addr with
    | none =>
      rw [read_stringF, hp] at h
      obtain rfl : ([0] : List Nat) = buf := by simpa using h
      refine ⟨by simp, 0, trivial, Or.inl ⟨?_, by simp [memBytes], by simp [memBytes]⟩⟩
      simpa using hp
    | some w =>
      by_cases hz : 0 ∈ wordBytes w
      · simp only [read_stringF, hp] at h
        rw [if_pos hz] at h
        obtain rfl : wordBytes w = buf := by simpa using h
        exact ⟨hz, 0, trivial, Or.inr ⟨w, by simpa using hp, hz,
          by simp [memBytes], by simp [memBytes]⟩⟩
      · simp only [read_stringF, hp] at h
        rw [if_neg hz] at h
        obtain ⟨t, ht, hbuf⟩ := Option.map_eq_some'.mp h
        obtain ⟨ht0, k, hrun, hdisj⟩ := ih (addr + 8) t ht
        have hwb : ∀ b ∈ wordBytes w, b ≠ 0 := fun b hb hb0 => hz (hb0 ▸ hb)
        have haddr : addr + 8 * (k + 1) = addr + 8 + 8 * k := by ring
        have hmb : memBytes peek addr (k + 1) =
            wordBytes w ++ memBytes peek (addr + 8) k := by
          simp [memBytes, hp]
        subst hbuf
        refine ⟨List.mem_append_right _ ht0, k + 1, ⟨⟨w, hp, hz⟩, hrun⟩, ?_⟩
        rcases hdisj with ⟨hnone, hb, htw⟩ | ⟨w2, hsome, hz2, hb, htw⟩
        · exact Or.inl ⟨by rw [haddr]; exact hnone,
            by rw [hmb, hb, List.append_assoc],
            by rw [takeWhile_append_nulFree _ _ hwb, htw, hmb]⟩
        · exact Or.inr ⟨w2, by rw [haddr]; exact hsome, hz2,
            by rw [hmb, hb, List.append_assoc],
            by rw [takeWhile_append_nulFree _ _ hwb, htw, hmb, List.append_assoc]⟩

theorem read_stringF_complete (peek : Nat → Option Nat) :
    ∀ k addr, nulFreeRun peek addr k →
      (peek (addr + 8 * k) = none ∨
        ∃ w, peek (addr + 8 * k) = some w ∧ 0 ∈ wordBytes w) →
      ∀ fuel, k < fuel → (read_stringF peek fuel addr).isSome = true := by
  intro k
  induction k with
  | zero =>
    intro addr _ hstop fuel hf
    obtain ⟨f, rfl⟩ : ∃ f, fuel = f + 1 := ⟨fuel - 1, by omega⟩
    rcases hstop with hn | ⟨w, hs, hz⟩
    · rw [read_stringF, show peek addr = none from by simpa using hn]
      rfl
    · have hs' : peek addr = some w := by simpa using hs
      simp only [read_stringF, hs']
      rw [if_pos hz]
      rfl
  | succ k ih =>
    intro addr hrun hstop fuel hf
    obtain ⟨⟨w, hw, hz⟩, hrest⟩ := hrun
    obtain ⟨f, rfl⟩ : ∃ f, fuel = f + 1 := ⟨fuel - 1, by omega⟩
    have haddr : addr + 8 * (k + 1) = addr + 8 + 8 * k := by ring
    have hin := ih (addr + 8) hrest (by rw [← haddr]; exact hstop) f (by omega)
    simp only [read_stringF, hw]
    rw [if_neg hz, Option.isSome_map']
    exact hin

/-- C6 (amended): read_string stops on (a) the first word containing an
embedded NUL, copied whole, or (b) a failed peek, after which a NUL is
stored; whenever it stops, the returned buffer contains a NUL and the bytes
before the first NUL are exactly the tracee memory bytes read so far; and
whenever the tracee memory has such a stopping point, the read does stop.
There is no maximum-length cutoff (see the counterexample). -/
theorem read_string_spec (peek : Nat → Option Nat) (addr : Nat) :
    (∀ fuel buf, read_stringF peek fuel addr = some buf →
      0 ∈ buf ∧
      ∃ k, nulFreeRun peek addr k ∧
        ((peek (addr + 8 * k) = none ∧ buf = memBytes peek addr k ++ [0] ∧
           buf.takeWhile (fun b => b != 0) = memBytes peek addr k) ∨
         (∃ w, peek (addr + 8 * k) = some w ∧ 0 ∈ wordBytes w ∧
           buf = memBytes peek addr k ++ wordBytes w ∧
           buf.takeWhile (fun b => b != 0) =
             memBytes peek addr k ++ (wordBytes w).takeWhile (fun b => b != 0)))) ∧
    (∀ k, nulFreeRun peek addr k →
      (peek (addr + 8 * k) = none ∨
        ∃ w, peek (addr + 8 * k) = some w ∧ 0 ∈ wordBytes w) →
      ∀ fuel, k < fuel → (read_stringF peek fuel addr).isSome = true) := by
  exact ⟨fun fuel buf h => read_stringF_sound peek fuel addr buf h,
    fun k hrun hstop fuel hf => read_stringF_complete peek k addr hrun hstop fuel hf⟩

theorem read_string_spec_witness :
    0 ∈ ([65, 0, 0, 0, 0, 0, 0, 0] : List Nat) := by
  exact ((read_string_spec (fun _ => some 65) 0).1 1 [65, 0, 0, 0, 0, 0, 0, 0]
    (by decide)).1

/-- C6 counterexample: on a tracee memory whose every word peeks successfully
and contains no NUL byte (every byte is 0x41), read_string never reaches a
stopping condition for any iteration bound — the code has no maximum-length
cutoff, contradicting termination case (c) of the claim. -/
theorem read_string_no_length_bound :
    ¬ ∃ fuel, (read_stringF (fun _ => some 4702111234474983745) fuel 0).isSome
        = true := by
  have hz : ¬ 0 ∈ wordBytes 4702111234474983745 := by decide
  have hall : ∀ fuel addr,
      read_stringF (fun _ => some 4702111234474983745) fuel addr = none := by
    intro fuel
    induction fuel with
    | zero => intro addr; rfl
    | succ f ih =>
      intro addr
      rw [read_stringF]
      simp [hz, ih]
  rintro ⟨fuel, h⟩
  rw [hall fuel 0] at h
  simp at h
